import Mathlib

/-!
# Snacks Fund dashboard — verification of the reporting core

Shallow embedding of the reporting logic of `snacks_fund_app.py` (and of the
variant script written out by `fund-dashboard-launcher.py`).  The program loads
a spreadsheet with columns `Date`, `Contributors`, `Spend`, `Contribution`,
`Balance`, computes summary metrics, per-contributor and per-month
aggregations, filters the transaction table by date range / contributor /
transaction type, and can export the filtered view.

Modelling conventions:
* A calendar date is a pair of an absolute month index (`year * 12 + month`)
  and a day of month; ordering is lexicographic, exactly the order of
  day-granular calendar dates that the script compares after
  `pd.to_datetime(...)` / `.dt.date`.
* Monetary amounts are modelled as exact integers (`Int`); the script performs
  only sums and sign tests (`> 0`) on them.
* A spreadsheet is a `Table`: a header of column names plus rows of typed
  cells.  Reading and writing `.xlsx` files is treated as faithful transport
  of that tabular content (the file format is an external library concern).
* String comparison (`lexLe`) is codepoint-lexicographic, as in Python; the
  `groupby` of pandas returns its group keys sorted ascending by key, and is
  modelled by sorting the distinct keys.
-/

namespace SnacksFund

/-- A calendar date at day granularity: `month` is an absolute month index
(`year * 12 + monthOfYear`), `day` the day of the month.  This is the value of
the `Date` column after `pd.to_datetime` normalisation, compared at
`.dt.date` (day) granularity by the script. -/
structure Date where
  month : Nat
  day : Nat
deriving DecidableEq, Repr

/-- Lexicographic (chronological) order on dates, as a Boolean test: the
comparison `d1 <= d2` used by the script's date-range filter. -/
def Date.leb (a b : Date) : Bool :=
  a.month < b.month || (a.month == b.month && a.day ≤ b.day)

/-- One transaction row of the spreadsheet: the five required columns
`Date`, `Contributors`, `Spend`, `Contribution`, `Balance`. -/
structure Tx where
  date : Date
  contributor : String
  spend : Int
  contribution : Int
  balance : Int
deriving DecidableEq, Repr

/-- The loaded dataframe `df`: rows in source order. -/
abbrev Ledger := List Tx

/-! ## Aggregator (summary metrics) -/

/-- `df['Contribution'].sum()` (snacks_fund_app.py line 135). -/
def totalContributions (l : Ledger) : Int :=
  (l.map (·.contribution)).sum

/-- `df['Spend'].sum()` (snacks_fund_app.py line 139). -/
def totalSpend (l : Ledger) : Int :=
  (l.map (·.spend)).sum

/-- `df['Balance'].iloc[-1] if not df.empty else 0`
(snacks_fund_app.py line 143). -/
def currentBalance (l : Ledger) : Int :=
  match l.getLast? with
  | some r => r.balance
  | none => 0

/-- `df[df['Contribution'] > 0]['Contributors'].nunique()` — the contributor
count of snacks_fund_app.py line 147 (only contributors of rows with positive
contribution). -/
def validContributorsApp (l : Ledger) : Nat :=
  (((l.filter (fun r => decide (0 < r.contribution))).map (·.contributor)).dedup).length

/-- `df['Contributors'].nunique()` — the contributor count of the script
embedded in fund-dashboard-launcher.py (line 68): all unique contributors. -/
def numContributorsLauncher (l : Ledger) : Nat :=
  ((l.map (·.contributor)).dedup).length

/-! ## Presenter / Filter -/

/-- The user-selected filter parameters: start/end date from the two
`st.date_input` widgets, contributor and transaction type from the two
`st.selectbox` widgets. -/
structure FilterSpec where
  startDate : Date
  endDate : Date
  contributor : String
  transactionType : String
deriving DecidableEq, Repr

/-- `filtered_df[(filtered_df['Date'].dt.date >= start_date) &
(filtered_df['Date'].dt.date <= end_date)]` (lines 101–102). -/
def filterByDate (l : Ledger) (s e : Date) : Ledger :=
  l.filter (fun r => Date.leb s r.date && Date.leb r.date e)

/-- `if selected_contributor != 'All': filtered_df =
filtered_df[filtered_df['Contributors'] == selected_contributor]`
(lines 104–105). -/
def filterByContributor (l : Ledger) (c : String) : Ledger :=
  if c = "All" then l else l.filter (fun r => r.contributor == c)

/-- The `if transaction_type == "Contribution" ... elif ... == "Spending"`
narrowing (lines 107–110). -/
def filterByType (l : Ledger) (t : String) : Ledger :=
  if t = "Contribution" then l.filter (fun r => decide (0 < r.contribution))
  else if t = "Spending" then l.filter (fun r => decide (0 < r.spend))
  else l

/-- The whole filter pipeline of lines 100–110 producing `filtered_df`. -/
def filterLedger (l : Ledger) (fs : FilterSpec) : Ledger :=
  filterByType (filterByContributor (filterByDate l fs.startDate fs.endDate) fs.contributor)
    fs.transactionType

/-- `df['Date'].min()`: minimum of a date column, `none` on an empty column
(pandas `NaT`, whose `.date()` raises). -/
def minD : List Date → Option Date
  | [] => none
  | d :: ds =>
      some (match minD ds with
        | none => d
        | some m => if Date.leb d m then d else m)

/-- `df['Date'].max()`: maximum of a date column, `none` on an empty column. -/
def maxD : List Date → Option Date
  | [] => none
  | d :: ds =>
      some (match maxD ds with
        | none => d
        | some m => if Date.leb m d then d else m)

/-! ## Sorting (model of pandas key sorting / `sort_values`) -/

/-- Codepoint-lexicographic `<=` on character lists: Python's string
comparison, under which pandas sorts group keys. -/
def lexLe : List Char → List Char → Bool
  | [], _ => true
  | _ :: _, [] => false
  | a :: as, b :: bs => a.toNat < b.toNat || (a.toNat == b.toNat && lexLe as bs)

/-- Codepoint-lexicographic `<=` on strings. -/
def strLeb (a b : String) : Bool :=
  lexLe a.data b.data

/-- Insert into a sorted list (helper of `sortBy`). -/
def insertBy (le : α → α → Bool) (a : α) : List α → List α
  | [] => [a]
  | b :: t => if le a b then a :: b :: t else b :: insertBy le a t

/-- Insertion sort by a Boolean comparison; models a comparison sort
(`groupby`'s ascending key order, `sort_values`).  Ties in the source order
are not specified by the program's observable claims. -/
def sortBy (le : α → α → Bool) : List α → List α
  | [] => []
  | a :: t => insertBy le a (sortBy le t)

/-! ## Per-contributor aggregation (the two `groupby('Contributors')` sites) -/

/-- Sum of the `Contribution` column over the rows of one contributor:
the group sum assigned by `groupby('Contributors')['Contribution'].sum()`. -/
def sumContribOf (l : Ledger) (c : String) : Int :=
  ((l.filter (fun r => r.contributor == c)).map (·.contribution)).sum

/-- `df[df['Contribution'] > 0]` (snacks_fund_app.py line 57). -/
def posRows (l : Ledger) : Ledger :=
  l.filter (fun r => decide (0 < r.contribution))

/-- `l.groupby('Contributors')['Contribution'].sum().reset_index()`: one pair
per distinct contributor, keys sorted ascending (pandas `groupby` default),
value the group's contribution sum. -/
def groupSumContrib (l : Ledger) : List (String × Int) :=
  (sortBy strLeb ((l.map (·.contributor)).dedup)).map (fun c => (c, sumContribOf l c))

/-- snacks_fund_app.py lines 57–58: group the positive-contribution rows by
contributor, sum `Contribution`, then keep the groups with positive sum. -/
def contribByPersonApp (l : Ledger) : List (String × Int) :=
  (groupSumContrib (posRows l)).filter (fun p => decide (0 < p.2))

/-- fund-dashboard-launcher.py embedded script lines 83–84: group all rows by
contributor, sum `Contribution`, then `sort_values('Contribution',
ascending=False)`. -/
def contribByPersonLauncher (l : Ledger) : List (String × Int) :=
  sortBy (fun p q => decide (q.2 ≤ p.2)) (groupSumContrib l)

/-! ## Monthly aggregation (`df.resample('M', on='Date')`, lines 65–68) -/

/-- The consecutive month indices from `a` to `b` inclusive: the regular
monthly bins that `resample('M')` generates between the first and the last
date. -/
def monthsSpan (a b : Nat) : List Nat :=
  (List.range (b + 1 - a)).map (a + ·)

/-- Sum of `Contribution` over the rows falling in month `m`. -/
def monthContribution (l : Ledger) (m : Nat) : Int :=
  ((l.filter (fun r => r.date.month == m)).map (·.contribution)).sum

/-- Sum of `Spend` over the rows falling in month `m`. -/
def monthSpend (l : Ledger) (m : Nat) : Int :=
  ((l.filter (fun r => r.date.month == m)).map (·.spend)).sum

/-- `df.resample('M', on='Date').agg({'Contribution':'sum','Spend':'sum'})`:
one row per calendar month of the span from the minimum to the maximum date,
in chronological order, holding that month's contribution and spend sums
(zero for months with no transactions — `resample` generates every bin of the
regular monthly range).  Empty input gives an empty result. -/
def monthlyFlows (l : Ledger) : List (Nat × Int × Int) :=
  match minD (l.map (·.date)), maxD (l.map (·.date)) with
  | some mn, some mx =>
      (monthsSpan mn.month mx.month).map (fun m => (m, monthContribution l m, monthSpend l m))
  | _, _ => []

/-! ## Loader and the script's main control flow -/

/-- A typed spreadsheet cell. -/
inductive Cell where
  | dateC (d : Date)
  | strC (s : String)
  | numC (x : Int)
deriving DecidableEq, Repr

/-- The tabular content of a spreadsheet: header and rows of cells.  The
`.xlsx` encoding itself is external; `pd.read_excel` / `to_excel` are
modelled as reading / writing this content. -/
structure Table where
  header : List String
  rows : List (List Cell)
deriving DecidableEq, Repr

/-- `required_columns = ['Date', 'Contributors', 'Spend', 'Contribution',
'Balance']` (line 28). -/
def requiredColumns : List String :=
  ["Date", "Contributors", "Spend", "Contribution", "Balance"]

/-- The loop of lines 29–33: the first required column not present in the
source schema (the loop errors and returns at the first missing column). -/
def firstMissing (cols : List String) : Option String :=
  requiredColumns.find? (fun c => !(decide (c ∈ cols)))

/-- Look a cell up by column name. -/
def getCell (header : List String) (row : List Cell) (col : String) : Option Cell :=
  match header.indexOf? col with
  | some i => row.get? i
  | none => none

/-- `pd.to_datetime` on a cell: succeeds on a date-typed cell. -/
def parseDate : Option Cell → Option Date
  | some (Cell.dateC d) => some d
  | _ => none

/-- Read a cell as the contributor name. -/
def parseStr : Option Cell → Option String
  | some (Cell.strC s) => some s
  | _ => none

/-- Read a cell as a monetary amount. -/
def parseNum : Option Cell → Option Int
  | some (Cell.numC x) => some x
  | _ => none

/-- Extract one `Tx` from a row using the header to locate the five required
columns; `none` on any malformed value (the uncaught-exception path of the
original, which fails the whole load). -/
def parseTx (header : List String) (row : List Cell) : Option Tx :=
  match parseDate (getCell header row "Date"), parseStr (getCell header row "Contributors"),
      parseNum (getCell header row "Spend"), parseNum (getCell header row "Contribution"),
      parseNum (getCell header row "Balance") with
  | some d, some c, some s, some co, some b => some ⟨d, c, s, co, b⟩
  | _, _, _, _, _ => none

/-- Parse all rows; any bad row fails the whole load. -/
def parseRows (header : List String) : List (List Cell) → Option Ledger
  | [] => some []
  | r :: rs =>
      match parseTx header r, parseRows header rs with
      | some tx, some l => some (tx :: l)
      | _, _ => none

/-- The Loader contract: `pd.read_excel` + required-column check +
`pd.to_datetime` normalisation, producing a Ledger or a descriptive error
(lines 25–36). -/
def loadTable (t : Table) : Except String Ledger :=
  match firstMissing t.header with
  | some c => Except.error ("Required column " ++ c ++ " not found in Excel file")
  | none =>
      match parseRows t.header t.rows with
      | some l => Except.ok l
      | none => Except.error "Error"

/-- `filtered_df.to_excel(export_path, index=False)` (line 122): the exported
tabular content of a FilteredView — the five columns, one row per
transaction, written fresh. -/
def exportTable (l : Ledger) : Table :=
  ⟨requiredColumns,
   l.map (fun r =>
     [Cell.dateC r.date, Cell.strC r.contributor, Cell.numC r.spend,
      Cell.numC r.contribution, Cell.numC r.balance])⟩

/-- The four summary metrics of `display_summary_metrics` (lines 130–148),
computed from the unfiltered dataframe. -/
structure Metrics where
  totalContributions : Int
  totalSpending : Int
  currentBalance : Int
  numContributors : Nat
deriving DecidableEq, Repr

/-- Observable outcome of one run of `main()`. -/
inductive RunResult where
  | schemaError (col : String)
  | genericError
  | rendered (m : Metrics) (filtered : Ledger)
deriving DecidableEq, Repr

/-- One run of `main()` on source content `t`, with the user's widget
selections: `sdSel`/`edSel` are the chosen start/end dates (`none` = the
defaults, which are `df['Date'].min().date()` / `df['Date'].max().date()`),
`selC` the contributor selection, `selT` the transaction type.  A missing
required column stops the run at the schema check (lines 29–33); a parse
failure or the `.min()`/`.max()` failure on an empty date column lands in
the top-level `except` handler (lines 125–128) as a generic error; otherwise
the metrics (from the unfiltered data) and the filtered table are rendered. -/
def runMain (t : Table) (sdSel edSel : Option Date) (selC selT : String) : RunResult :=
  match firstMissing t.header with
  | some c => RunResult.schemaError c
  | none =>
      match parseRows t.header t.rows with
      | none => RunResult.genericError
      | some rows =>
          match minD (rows.map (·.date)), maxD (rows.map (·.date)) with
          | some mn, some mx =>
              RunResult.rendered
                ⟨totalContributions rows, totalSpend rows, currentBalance rows,
                 validContributorsApp rows⟩
                (filterLedger rows ⟨sdSel.getD mn, edSel.getD mx, selC, selT⟩)
          | _, _ => RunResult.genericError

/-! ## Spec-side reference functions (for the sum / last-row claims) -/

/-- The spec's words for `totalContributions`: the sum of the `contribution`
field over all rows, by direct recursion over the Ledger. -/
def specTotalContributions : Ledger → Int
  | [] => 0
  | r :: t => r.contribution + specTotalContributions t

/-- The spec's words for `totalSpend`: the sum of the `spend` field over all
rows. -/
def specTotalSpend : Ledger → Int
  | [] => 0
  | r :: t => r.spend + specTotalSpend t

/-- The spec's words for `currentBalance`: the `balance` field of the last
row in source order, `0` if the Ledger is empty. -/
def specLastBalance : Ledger → Int
  | [] => 0
  | [r] => r.balance
  | _ :: r :: t => specLastBalance (r :: t)

/-! ## Concrete example data (month 24289 is January 2024) -/

/-- The spec's example scenario: Alice contributes 100 on 2024-01-01
(balance 100), Bob spends 30 on 2024-01-15 (balance 70). -/
def exL : Ledger :=
  [⟨⟨24289, 1⟩, "Alice", 0, 100, 100⟩, ⟨⟨24289, 15⟩, "Bob", 30, 0, 70⟩]

/-- The example scenario written to a spreadsheet. -/
def exT : Table :=
  exportTable exL

/-- Two contributors with positive contributions 10 < 20, plus a
spend-only contributor Carl. -/
def exL6 : Ledger :=
  [⟨⟨24289, 1⟩, "Alice", 0, 10, 10⟩, ⟨⟨24289, 2⟩, "Bob", 0, 20, 30⟩,
   ⟨⟨24289, 3⟩, "Carl", 5, 0, 25⟩]

/-- Transactions in months 100 and 102 only — month 101 has none. -/
def exL7 : Ledger :=
  [⟨⟨100, 5⟩, "Alice", 0, 10, 10⟩, ⟨⟨102, 5⟩, "Bob", 3, 0, 7⟩]

/-! ## Order lemmas for dates -/

theorem Date.leb_iff {a b : Date} :
    Date.leb a b = true ↔ a.month < b.month ∨ (a.month = b.month ∧ a.day ≤ b.day) := by
  simp [Date.leb]

theorem Date.leb_refl (a : Date) : Date.leb a a = true := by
  simp [Date.leb_iff]

theorem Date.leb_trans {a b c : Date} (h1 : Date.leb a b = true) (h2 : Date.leb b c = true) :
    Date.leb a c = true := by
  rw [Date.leb_iff] at h1 h2 ⊢
  omega

theorem Date.leb_total (a b : Date) : Date.leb a b = true ∨ Date.leb b a = true := by
  rw [Date.leb_iff, Date.leb_iff]
  omega

theorem minD_eq_none {ds : List Date} : minD ds = none ↔ ds = [] := by
  cases ds <;> simp [minD]

theorem maxD_eq_none {ds : List Date} : maxD ds = none ↔ ds = [] := by
  cases ds <;> simp [maxD]

theorem minD_le {ds : List Date} {m : Date} (h : minD ds = some m) :
    ∀ d ∈ ds, Date.leb m d = true := by
  induction ds generalizing m with
  | nil => simp [minD] at h
  | cons d t ih =>
    intro d' hd'
    cases ht : minD t with
    | none =>
      have htnil : t = [] := minD_eq_none.mp ht
      subst htnil
      simp only [minD, Option.some.injEq] at h
      subst h
      simp only [List.mem_singleton] at hd'
      subst hd'
      exact Date.leb_refl _
    | some m' =>
      simp only [minD, ht, Option.some.injEq] at h
      rcases List.mem_cons.mp hd' with rfl | hmem
      · by_cases hc : Date.leb d' m' = true
        · rw [if_pos hc] at h; subst h; exact Date.leb_refl _
        · rw [if_neg hc] at h; subst h
          rcases Date.leb_total m' d' with hh | hh
          · exact hh
          · exact absurd hh hc
      · by_cases hc : Date.leb d m' = true
        · rw [if_pos hc] at h; subst h
          exact Date.leb_trans hc (ih ht d' hmem)
        · rw [if_neg hc] at h; subst h
          exact ih ht d' hmem

theorem maxD_ge {ds : List Date} {m : Date} (h : maxD ds = some m) :
    ∀ d ∈ ds, Date.leb d m = true := by
  induction ds generalizing m with
  | nil => simp [maxD] at h
  | cons d t ih =>
    intro d' hd'
    cases ht : maxD t with
    | none =>
      have htnil : t = [] := maxD_eq_none.mp ht
      subst htnil
      simp only [maxD, Option.some.injEq] at h
      subst h
      simp only [List.mem_singleton] at hd'
      subst hd'
      exact Date.leb_refl _
    | some m' =>
      simp only [maxD, ht, Option.some.injEq] at h
      rcases List.mem_cons.mp hd' with rfl | hmem
      · by_cases hc : Date.leb m' d' = true
        · rw [if_pos hc] at h; subst h; exact Date.leb_refl _
        · rw [if_neg hc] at h; subst h
          rcases Date.leb_total d' m' with hh | hh
          · exact hh
          · exact absurd hh hc
      · by_cases hc : Date.leb m' d = true
        · rw [if_pos hc] at h; subst h
          exact Date.leb_trans (ih ht d' hmem) hc
        · rw [if_neg hc] at h; subst h
          exact ih ht d' hmem

/-! ## Control-flow helper -/

theorem runMain_rendered_parse {t : Table} {sd ed : Option Date} {c ty : String}
    {m : Metrics} {f : Ledger} (h : runMain t sd ed c ty = RunResult.rendered m f) :
    ∃ rows, parseRows t.header t.rows = some rows ∧
      m = ⟨totalContributions rows, totalSpend rows, currentBalance rows,
           validContributorsApp rows⟩ := by
  unfold runMain at h
  cases hf : firstMissing t.header with
  | some c0 =>
    simp only [hf] at h
    exact RunResult.noConfusion h
  | none =>
    cases hp : parseRows t.header t.rows with
    | none =>
      simp only [hf, hp] at h
      exact RunResult.noConfusion h
    | some rows =>
      cases hmn : minD (rows.map (·.date)) with
      | none =>
        simp only [hf, hp, hmn] at h
        exact RunResult.noConfusion h
      | some mn =>
        cases hmx : maxD (rows.map (·.date)) with
        | none =>
          simp only [hf, hp, hmn, hmx] at h
          exact RunResult.noConfusion h
        | some mx =>
          simp only [hf, hp, hmn, hmx] at h
          injection h with h1 h2
          exact ⟨rows, rfl, h1.symm⟩

/-! ## Claims -/

/-- C3: for every Ledger, `totalContributions` is the sum of the
`contribution` field over all rows and `totalSpend` the sum of the `spend`
field, as the spec states them by recursion over the rows. -/
theorem totals_are_row_sums (l : Ledger) :
    totalContributions l = specTotalContributions l ∧
    totalSpend l = specTotalSpend l := by
  induction l with
  | nil => exact ⟨rfl, rfl⟩
  | cons r t ih =>
    constructor
    · have h1 := ih.1
      simp only [totalContributions] at h1 ⊢
      rw [List.map_cons, List.sum_cons, h1, specTotalContributions]
    · have h2 := ih.2
      simp only [totalSpend] at h2 ⊢
      rw [List.map_cons, List.sum_cons, h2, specTotalSpend]

/-- C5: the two contributor-count variants in the source disagree: on the
spec's example scenario the launcher variant (all unique contributors)
counts 2, the dashboard variant (only contributors of positive-contribution
rows) counts 1. -/
theorem contributorCount_variants_disagree :
    numContributorsLauncher exL ≠ validContributorsApp exL ∧
    numContributorsLauncher exL = 2 ∧ validContributorsApp exL = 1 := by
  decide

/-- C1: `currentBalance` is the `balance` of the last row in source order
(`0` on an empty Ledger), and the rendered current-balance metric is computed
from the unfiltered Ledger — it does not depend on any of the filter
selections of the run. -/
theorem currentBalance_claim :
    (∀ l : Ledger, currentBalance l = specLastBalance l) ∧
    (∀ (t : Table) (sd ed sd' ed' : Option Date) (c ty c' ty' : String)
       (m m' : Metrics) (f f' : Ledger),
      runMain t sd ed c ty = RunResult.rendered m f →
      runMain t sd' ed' c' ty' = RunResult.rendered m' f' →
      m.currentBalance = m'.currentBalance) ∧
    (∀ (t : Table) (sd ed : Option Date) (c ty : String) (m : Metrics)
       (f rows : Ledger),
      parseRows t.header t.rows = some rows →
      runMain t sd ed c ty = RunResult.rendered m f →
      m.currentBalance = currentBalance rows) := by
  refine ⟨?_, ?_, ?_⟩
  · intro l
    induction l with
    | nil => rfl
    | cons r t ih =>
      cases t with
      | nil => rfl
      | cons r2 t2 =>
        have step : currentBalance (r :: r2 :: t2) = currentBalance (r2 :: t2) := by
          unfold currentBalance
          rw [List.getLast?_cons_cons]
        rw [step, ih]
        rfl
  · intro t sd ed sd' ed' c ty c' ty' m m' f f' h h'
    obtain ⟨rows, hp, hm⟩ := runMain_rendered_parse h
    obtain ⟨rows2, hp2, hm2⟩ := runMain_rendered_parse h'
    rw [hp] at hp2
    injection hp2 with e
    subst e
    rw [hm, hm2]
  · intro t sd ed c ty m f rows hp h
    obtain ⟨rows2, hp2, hm⟩ := runMain_rendered_parse h
    rw [hp] at hp2
    injection hp2 with e
    subst e
    rw [hm]

/-- Witness for C1 on the spec's example scenario. -/
theorem currentBalance_claim_witness :
    parseRows exT.header exT.rows = some exL ∧
    runMain exT none none "All" "All" = RunResult.rendered ⟨100, 30, 70, 1⟩ exL ∧
    (⟨100, 30, 70, 1⟩ : Metrics).currentBalance = currentBalance exL :=
  ⟨by decide, by decide,
   currentBalance_claim.2.2 exT none none "All" "All" ⟨100, 30, 70, 1⟩ exL exL
     (by decide) (by decide)⟩

/-- C2: a row is in the FilteredView iff it is a row of the Ledger whose date
lies in the inclusive range, whose contributor matches the selection when it
is not "All", and which passes the transaction-type narrowing. -/
theorem filteredView_mem_iff (l : Ledger) (fs : FilterSpec) (r : Tx) :
    r ∈ filterLedger l fs ↔
      r ∈ l ∧
      (Date.leb fs.startDate r.date = true ∧ Date.leb r.date fs.endDate = true) ∧
      (fs.contributor ≠ "All" → r.contributor = fs.contributor) ∧
      (if fs.transactionType = "Contribution" then 0 < r.contribution
       else if fs.transactionType = "Spending" then 0 < r.spend else True) := by
  unfold filterLedger filterByType filterByContributor filterByDate
  split_ifs <;>
    simp_all [List.mem_filter, Bool.and_eq_true, decide_eq_true_eq, beq_iff_eq] <;>
    tauto

/-- C8: with the default selections — start date the Ledger's minimum date,
end date its maximum, contributor "All", type "All" — the filter is the
identity on the Ledger. -/
theorem identityFilter_default_range (l : Ledger) (mn mx : Date)
    (hmin : minD (l.map (·.date)) = some mn)
    (hmax : maxD (l.map (·.date)) = some mx) :
    filterLedger l ⟨mn, mx, "All", "All"⟩ = l := by
  show filterByType (filterByContributor (filterByDate l mn mx) "All") "All" = l
  rw [filterByType, if_neg (by decide : ¬("All" : String) = "Contribution"),
    if_neg (by decide : ¬("All" : String) = "Spending"),
    filterByContributor, if_pos rfl, filterByDate, List.filter_eq_self]
  intro r hr
  rw [Bool.and_eq_true]
  exact ⟨minD_le hmin r.date (List.mem_map_of_mem _ hr),
         maxD_ge hmax r.date (List.mem_map_of_mem _ hr)⟩

/-- Witness for C8 on the spec's example scenario. -/
theorem identityFilter_default_range_witness :
    minD (exL.map (·.date)) = some ⟨24289, 1⟩ ∧
    maxD (exL.map (·.date)) = some ⟨24289, 15⟩ ∧
    filterLedger exL ⟨⟨24289, 1⟩, ⟨24289, 15⟩, "All", "All"⟩ = exL :=
  ⟨by decide, by decide,
   identityFilter_default_range exL ⟨24289, 1⟩ ⟨24289, 15⟩ (by decide) (by decide)⟩

/-- C10: on a source with all required columns and zero rows, the run reaches
the `.min()`/`.max()` of the empty Date column, fails there, and surfaces a
generic error instead of the filtered table — although the current-balance
aggregation itself is 0 on the empty Ledger. -/
theorem emptyLedger_run_generic_error (t : Table) (sd ed : Option Date)
    (selC selT : String) (hcols : firstMissing t.header = none)
    (hrows : t.rows = []) :
    runMain t sd ed selC selT = RunResult.genericError ∧
    currentBalance ([] : Ledger) = 0 := by
  constructor
  · unfold runMain
    simp only [hcols, hrows, parseRows, List.map_nil, minD]
  · rfl

/-- Witness for C10: the empty table with exactly the required columns. -/
theorem emptyLedger_run_generic_error_witness :
    firstMissing requiredColumns = none ∧
    (runMain ⟨requiredColumns, []⟩ none none "All" "All" = RunResult.genericError ∧
     currentBalance ([] : Ledger) = 0) :=
  ⟨by decide,
   emptyLedger_run_generic_error ⟨requiredColumns, []⟩ none none "All" "All"
     (by decide) rfl⟩

/-! ## Sorting lemmas -/

theorem lexLe_total : ∀ (a b : List Char), lexLe a b = true ∨ lexLe b a = true := by
  intro a
  induction a with
  | nil => intro b; left; rfl
  | cons x xs ih =>
    intro b
    cases b with
    | nil => right; rfl
    | cons y ys =>
      simp only [lexLe, Bool.or_eq_true, Bool.and_eq_true, decide_eq_true_eq, beq_iff_eq]
      rcases Nat.lt_trichotomy x.toNat y.toNat with hlt | heq | hgt
      · exact Or.inl (Or.inl hlt)
      · rcases ih ys with h | h
        · exact Or.inl (Or.inr ⟨heq, h⟩)
        · exact Or.inr (Or.inr ⟨heq.symm, h⟩)
      · exact Or.inr (Or.inl hgt)

theorem lexLe_trans : ∀ {a b c : List Char},
    lexLe a b = true → lexLe b c = true → lexLe a c = true := by
  intro a
  induction a with
  | nil => intro b c _ _; rfl
  | cons x xs ih =>
    intro b c hab hbc
    cases b with
    | nil => simp [lexLe] at hab
    | cons y ys =>
      cases c with
      | nil => simp [lexLe] at hbc
      | cons z zs =>
        simp only [lexLe, Bool.or_eq_true, Bool.and_eq_true, decide_eq_true_eq,
          beq_iff_eq] at hab hbc ⊢
        rcases hab with h1 | ⟨h1, h1'⟩ <;> rcases hbc with h2 | ⟨h2, h2'⟩
        · exact Or.inl (by omega)
        · exact Or.inl (by omega)
        · exact Or.inl (by omega)
        · exact Or.inr ⟨by omega, ih h1' h2'⟩

theorem strLeb_total (a b : String) : strLeb a b = true ∨ strLeb b a = true :=
  lexLe_total a.data b.data

theorem strLeb_trans {a b c : String} (h1 : strLeb a b = true) (h2 : strLeb b c = true) :
    strLeb a c = true :=
  lexLe_trans h1 h2

theorem mem_insertBy {le : α → α → Bool} {a x : α} :
    ∀ {l : List α}, x ∈ insertBy le a l ↔ x = a ∨ x ∈ l := by
  intro l
  induction l with
  | nil => simp [insertBy]
  | cons b t ih =>
    simp only [insertBy]
    split_ifs with h
    · simp [List.mem_cons]
    · simp only [List.mem_cons, ih]
      tauto

theorem mem_sortBy {le : α → α → Bool} {x : α} :
    ∀ {l : List α}, x ∈ sortBy le l ↔ x ∈ l := by
  intro l
  induction l with
  | nil => simp [sortBy]
  | cons a t ih => simp [sortBy, mem_insertBy, ih, List.mem_cons]

theorem pairwise_insertBy {le : α → α → Bool}
    (htot : ∀ a b, le a b = true ∨ le b a = true)
    (htr : ∀ {a b c}, le a b = true → le b c = true → le a c = true) :
    ∀ {l : List α} (a : α), l.Pairwise (fun x y => le x y = true) →
      (insertBy le a l).Pairwise (fun x y => le x y = true) := by
  intro l
  induction l with
  | nil =>
    intro a _
    simp [insertBy]
  | cons b t ih =>
    intro a h
    rw [List.pairwise_cons] at h
    obtain ⟨hb, ht⟩ := h
    simp only [insertBy]
    split_ifs with hc
    · rw [List.pairwise_cons]
      refine ⟨?_, List.pairwise_cons.mpr ⟨hb, ht⟩⟩
      intro y hy
      rcases List.mem_cons.mp hy with rfl | hmem
      · exact hc
      · exact htr hc (hb y hmem)
    · rw [List.pairwise_cons]
      refine ⟨?_, ih a ht⟩
      intro y hy
      rcases mem_insertBy.mp hy with rfl | hmem
      · rcases htot y b with hh | hh
        · exact absurd hh hc
        · exact hh
      · exact hb y hmem

theorem pairwise_sortBy {le : α → α → Bool}
    (htot : ∀ a b, le a b = true ∨ le b a = true)
    (htr : ∀ {a b c}, le a b = true → le b c = true → le a c = true) :
    ∀ (l : List α), (sortBy le l).Pairwise (fun x y => le x y = true) := by
  intro l
  induction l with
  | nil => simp [sortBy]
  | cons a t ih => exact pairwise_insertBy htot htr a ih

/-! ## Per-contributor aggregation lemmas -/

theorem sumContribOf_cons (r : Tx) (t : Ledger) (c : String) :
    sumContribOf (r :: t) c =
      (if r.contributor = c then r.contribution else 0) + sumContribOf t c := by
  simp only [sumContribOf, List.filter_cons]
  by_cases h : r.contributor = c
  · simp [h]
  · simp [h]

theorem sumContribOf_posRows {l : Ledger} (h : ∀ r ∈ l, 0 ≤ r.contribution)
    (c : String) : sumContribOf (posRows l) c = sumContribOf l c := by
  induction l with
  | nil => rfl
  | cons r t ih =>
    have hr : (0 : Int) ≤ r.contribution := h r (List.mem_cons_self r t)
    have ih' := ih (fun r' hr' => h r' (List.mem_cons_of_mem r hr'))
    by_cases hpos : (0 : Int) < r.contribution
    · have hp : posRows (r :: t) = r :: posRows t := by
        simp [posRows, List.filter_cons, hpos]
      rw [hp, sumContribOf_cons, sumContribOf_cons, ih']
    · have hz : r.contribution = 0 := le_antisymm (not_lt.mp hpos) hr
      have hp : posRows (r :: t) = posRows t := by
        simp [posRows, List.filter_cons, hpos]
      rw [hp, ih', sumContribOf_cons]
      by_cases hcc : r.contributor = c
      · simp [hcc, hz]
      · simp [hcc]

theorem exists_pos_of_sum_pos : ∀ {xs : List Int},
    (∀ x ∈ xs, 0 ≤ x) → 0 < xs.sum → ∃ x ∈ xs, 0 < x := by
  intro xs
  induction xs with
  | nil => intro _ h; simp at h
  | cons x t ih =>
    intro hnn hs
    rw [List.sum_cons] at hs
    by_cases hx : (0 : Int) < x
    · exact ⟨x, List.mem_cons_self x t, hx⟩
    · have hx0 : x = 0 :=
        le_antisymm (not_lt.mp hx) (hnn x (List.mem_cons_self x t))
      have ht : 0 < t.sum := by omega
      obtain ⟨y, hy, hy'⟩ := ih (fun y hy => hnn y (List.mem_cons_of_mem x hy)) ht
      exact ⟨y, List.mem_cons_of_mem x hy, hy'⟩

/-- C6 counterexample: the dashboard variant orders the per-contributor sums
ascending by contributor name, not descending by sum (Alice's 10 precedes
Bob's 20); and the launcher variant keeps contributors with zero total
contribution (Carl, who only spends). -/
theorem contribByContributor_claim_cex :
    ¬ (contribByPersonApp exL6).Pairwise (fun p q => q.2 ≤ p.2) ∧
    ("Carl", (0 : Int)) ∈ contribByPersonLauncher exL6 := by
  decide

/-- C6 (amended): the dashboard variant maps each contributor having a
positive-contribution row to a positive sum — the sum of all their
contributions when contributions are non-negative — with zero-total
contributors excluded, but ordered ascending by contributor name; the
launcher variant is ordered descending by sum but contains every contributor
of the Ledger, zero totals included. -/
theorem contribByContributor_amended (l : Ledger) :
    (contribByPersonApp l).Pairwise (fun p q => strLeb p.1 q.1 = true) ∧
    (∀ p ∈ contribByPersonApp l, 0 < p.2) ∧
    ((∀ r ∈ l, 0 ≤ r.contribution) →
      (∀ p ∈ contribByPersonApp l, p.2 = sumContribOf l p.1) ∧
      (∀ c : String, 0 < sumContribOf l c →
        (c, sumContribOf l c) ∈ contribByPersonApp l)) ∧
    (contribByPersonLauncher l).Pairwise (fun p q => q.2 ≤ p.2) ∧
    (∀ c ∈ l.map (·.contributor), (c, sumContribOf l c) ∈ contribByPersonLauncher l) := by
  refine ⟨?_, ?_, ?_, ?_, ?_⟩
  · unfold contribByPersonApp groupSumContrib
    apply List.Pairwise.filter
    exact List.Pairwise.map _ (fun a b hab => hab)
      (pairwise_sortBy strLeb_total strLeb_trans _)
  · intro p hp
    exact of_decide_eq_true (List.mem_filter.mp hp).2
  · intro hnn
    constructor
    · intro p hp
      have hp' := (List.mem_filter.mp hp).1
      unfold groupSumContrib at hp'
      obtain ⟨c, hc, rfl⟩ := List.mem_map.mp hp'
      exact sumContribOf_posRows hnn c
    · intro c hcpos
      have hsum : 0 < sumContribOf (posRows l) c := by
        rw [sumContribOf_posRows hnn c]; exact hcpos
      have hnn' : ∀ x ∈ ((l.filter (fun r => r.contributor == c)).map (·.contribution)),
          (0 : Int) ≤ x := by
        intro x hx
        obtain ⟨r, hr, rfl⟩ := List.mem_map.mp hx
        exact hnn r (List.mem_filter.mp hr).1
      obtain ⟨x, hx, hxpos⟩ := exists_pos_of_sum_pos hnn' hcpos
      obtain ⟨r, hr, rfl⟩ := List.mem_map.mp hx
      have hrl : r ∈ l := (List.mem_filter.mp hr).1
      have hrc : r.contributor = c := by
        have := (List.mem_filter.mp hr).2
        exact beq_iff_eq.mp this
      have hrpos : r ∈ posRows l :=
        List.mem_filter.mpr ⟨hrl, by simpa using hxpos⟩
      have hkey : c ∈ ((posRows l).map (·.contributor)).dedup := by
        rw [List.mem_dedup]
        exact hrc ▸ List.mem_map_of_mem _ hrpos
      have hmem : (c, sumContribOf (posRows l) c) ∈ groupSumContrib (posRows l) :=
        List.mem_map_of_mem _ (mem_sortBy.mpr hkey)
      have hmem' : (c, sumContribOf l c) ∈ groupSumContrib (posRows l) := by
        rw [← sumContribOf_posRows hnn c]; exact hmem
      exact List.mem_filter.mpr ⟨hmem', by simpa using hcpos⟩
  · unfold contribByPersonLauncher
    refine List.Pairwise.imp ?_ (pairwise_sortBy ?_ ?_ (groupSumContrib l))
    · intro a b hab
      exact of_decide_eq_true hab
    · intro a b
      rcases le_total b.2 a.2 with h | h
      · exact Or.inl (decide_eq_true h)
      · exact Or.inr (decide_eq_true h)
    · intro a b c h1 h2
      exact decide_eq_true (le_trans (of_decide_eq_true h2) (of_decide_eq_true h1))
  · intro c hc
    unfold contribByPersonLauncher
    rw [mem_sortBy]
    exact List.mem_map_of_mem _ (mem_sortBy.mpr (List.mem_dedup.mpr hc))

/-- Witness for C6 (amended) on `exL6`: its contributions are non-negative,
Alice's total 10 is positive, and the pair (Alice, 10) is in the dashboard
variant's output. -/
theorem contribByContributor_amended_witness :
    (∀ r ∈ exL6, 0 ≤ r.contribution) ∧
    0 < sumContribOf exL6 "Alice" ∧
    ("Alice", sumContribOf exL6 "Alice") ∈ contribByPersonApp exL6 :=
  ⟨by decide, by decide,
   ((contribByContributor_amended exL6).2.2.1 (by decide)).2 "Alice" (by decide)⟩

/-- C7 counterexample: with transactions only in months 100 and 102,
`monthlyFlows` still emits a row for month 101, in which no transaction
occurs — the claim's "no rows for months in which no transaction occurs"
fails on the code's `resample('M')`. -/
theorem monthlyFlows_claim_cex :
    (monthlyFlows exL7).map (·.1) = [100, 101, 102] ∧
    ¬ (101 ∈ exL7.map (fun r => r.date.month)) := by
  decide

/-- C7 (amended): on a non-empty Ledger, `monthlyFlows` has exactly one row
per calendar month of the contiguous span from the month of the minimum date
to the month of the maximum date (months with no transactions included, with
zero sums), in chronological order; each row holds that month's contribution
and spend sums, and every transaction's month has its row. -/
theorem monthlyFlows_amended (l : Ledger) (mn mx : Date)
    (hmin : minD (l.map (·.date)) = some mn)
    (hmax : maxD (l.map (·.date)) = some mx) :
    (monthlyFlows l).Pairwise (fun x y => x.1 < y.1) ∧
    (∀ row ∈ monthlyFlows l, mn.month ≤ row.1 ∧ row.1 ≤ mx.month ∧
      row.2.1 = monthContribution l row.1 ∧ row.2.2 = monthSpend l row.1) ∧
    (∀ m : Nat, mn.month ≤ m → m ≤ mx.month →
      (m, monthContribution l m, monthSpend l m) ∈ monthlyFlows l) ∧
    (∀ r ∈ l, (r.date.month, monthContribution l r.date.month,
      monthSpend l r.date.month) ∈ monthlyFlows l) := by
  have hm : monthlyFlows l =
      (monthsSpan mn.month mx.month).map
        (fun m => (m, monthContribution l m, monthSpend l m)) := by
    unfold monthlyFlows
    simp only [hmin, hmax]
  have hc3 : ∀ m : Nat, mn.month ≤ m → m ≤ mx.month →
      (m, monthContribution l m, monthSpend l m) ∈ monthlyFlows l := by
    intro m h1 h2
    rw [hm]
    apply List.mem_map_of_mem
    unfold monthsSpan
    exact List.mem_map.mpr ⟨m - mn.month, List.mem_range.mpr (by omega), by omega⟩
  refine ⟨?_, ?_, hc3, ?_⟩
  · rw [hm]
    unfold monthsSpan
    refine List.Pairwise.map _ (fun a b hab => hab) ?_
    refine List.Pairwise.map _ (fun a b hab => ?_) (List.pairwise_lt_range _)
    exact Nat.add_lt_add_left hab mn.month
  · intro row hrow
    rw [hm] at hrow
    obtain ⟨m, hmrange, rfl⟩ := List.mem_map.mp hrow
    unfold monthsSpan at hmrange
    obtain ⟨k, hk, rfl⟩ := List.mem_map.mp hmrange
    rw [List.mem_range] at hk
    exact ⟨Nat.le_add_right _ _, by omega, rfl, rfl⟩
  · intro r hr
    have h1 := minD_le hmin r.date (List.mem_map_of_mem _ hr)
    have h2 := maxD_ge hmax r.date (List.mem_map_of_mem _ hr)
    rw [Date.leb_iff] at h1 h2
    exact hc3 r.date.month (by omega) (by omega)

/-- Witness for C7 (amended) on `exL7`: the span runs from month 100 to month
102, and the empty month 101 has its (zero-sums) row. -/
theorem monthlyFlows_amended_witness :
    minD (exL7.map (·.date)) = some ⟨100, 5⟩ ∧
    maxD (exL7.map (·.date)) = some ⟨102, 5⟩ ∧
    ((101 : Nat), monthContribution exL7 101, monthSpend exL7 101) ∈ monthlyFlows exL7 :=
  ⟨by decide, by decide,
   (monthlyFlows_amended exL7 ⟨100, 5⟩ ⟨102, 5⟩ (by decide) (by decide)).2.2.1 101
     (by decide) (by decide)⟩

/-! ## Loader schema-check lemmas -/

theorem find?_first {α} {p : α → Bool} :
    ∀ {xs : List α} {x : α}, xs.find? p = some x →
      ∃ pre post, xs = pre ++ x :: post ∧ p x = true ∧ ∀ y ∈ pre, p y = false := by
  intro xs
  induction xs with
  | nil => intro x h; simp [List.find?] at h
  | cons a t ih =>
    intro x h
    by_cases hpa : p a = true
    · rw [List.find?_cons_of_pos t hpa] at h
      injection h with h
      subst h
      exact ⟨[], t, rfl, hpa, by intro y hy; simp at hy⟩
    · rw [List.find?_cons_of_neg t hpa] at h
      obtain ⟨pre, post, heq, hx, hpre⟩ := ih h
      refine ⟨a :: pre, post, by simp [heq], hx, ?_⟩
      intro y hy
      rcases List.mem_cons.mp hy with rfl | hmem
      · exact Bool.not_eq_true _ ▸ eq_false_of_ne_true hpa
      · exact hpre y hmem

/-- C4 counterexample: with both `Contribution` and `Balance` absent, the run
stops with an error naming only `Contribution` — the first missing column in
the check's order — so the error does not name each absent field
(`Balance` is missing too and unreported). -/
theorem loader_missing_column_cex :
    runMain ⟨["Date", "Contributors", "Spend"], []⟩ none none "All" "All" =
      RunResult.schemaError "Contribution" ∧
    "Balance" ∉ (["Date", "Contributors", "Spend"] : List String) ∧
    ("Contribution" : String) ≠ "Balance" := by
  decide

/-- C4 (amended): whenever one or more required columns are absent, the run
fails at the schema check with an error naming the FIRST absent required
column (in the order Date, Contributors, Spend, Contribution, Balance) —
not every absent one — and nothing is aggregated or rendered; in particular
a source missing only `Balance` fails with an error naming `Balance`. -/
theorem loader_missing_column_amended (t : Table) (sd ed : Option Date)
    (selC selT : String) :
    ((∃ c ∈ requiredColumns, c ∉ t.header) →
      ∃ pre post c, requiredColumns = pre ++ c :: post ∧ c ∉ t.header ∧
        (∀ c' ∈ pre, c' ∈ t.header) ∧
        runMain t sd ed selC selT = RunResult.schemaError c ∧
        (∀ m f, runMain t sd ed selC selT ≠ RunResult.rendered m f)) ∧
    ("Date" ∈ t.header → "Contributors" ∈ t.header → "Spend" ∈ t.header →
     "Contribution" ∈ t.header → "Balance" ∉ t.header →
      runMain t sd ed selC selT = RunResult.schemaError "Balance") := by
  constructor
  · rintro ⟨c0, hc0mem, hc0notin⟩
    have hsome : ∃ x, firstMissing t.header = some x := by
      rw [← Option.isSome_iff_exists]
      unfold firstMissing
      rw [List.find?_isSome]
      exact ⟨c0, hc0mem, by simp [hc0notin]⟩
    obtain ⟨x, hx⟩ := hsome
    obtain ⟨pre, post, heq, hpx, hpre⟩ := find?_first hx
    have hrun : runMain t sd ed selC selT = RunResult.schemaError x := by
      unfold runMain
      simp only [hx]
    refine ⟨pre, post, x, heq, ?_, ?_, hrun, ?_⟩
    · simpa using hpx
    · intro c' hc'
      have := hpre c' hc'
      simpa using this
    · intro m f hcontra
      rw [hrun] at hcontra
      exact RunResult.noConfusion hcontra
  · intro h1 h2 h3 h4 h5
    have hx : firstMissing t.header = some "Balance" := by
      unfold firstMissing requiredColumns
      rw [List.find?_cons_of_neg _ (by simp [h1]),
        List.find?_cons_of_neg _ (by simp [h2]),
        List.find?_cons_of_neg _ (by simp [h3]),
        List.find?_cons_of_neg _ (by simp [h4]),
        List.find?_cons_of_pos _ (by simp [h5])]
    unfold runMain
    simp only [hx]

/-- Witness for C4 (amended): a source with every required column except
`Balance` fails naming `Balance`. -/
theorem loader_missing_column_amended_witness :
    ("Date" ∈ (["Date", "Contributors", "Spend", "Contribution"] : List String)) ∧
    ("Contributors" ∈ (["Date", "Contributors", "Spend", "Contribution"] : List String)) ∧
    ("Balance" ∉ (["Date", "Contributors", "Spend", "Contribution"] : List String)) ∧
    runMain ⟨["Date", "Contributors", "Spend", "Contribution"], []⟩ none none "All" "All" =
      RunResult.schemaError "Balance" :=
  ⟨by decide, by decide, by decide,
   (loader_missing_column_amended ⟨["Date", "Contributors", "Spend", "Contribution"], []⟩
       none none "All" "All").2
     (by decide) (by decide) (by decide) (by decide) (by decide)⟩

/-- C9: exporting a FilteredView and loading the exported table back through
the Loader reproduces exactly the same rows and field values. -/
theorem export_load_roundtrip (v : Ledger) : loadTable (exportTable v) = Except.ok v := by
  have h2 : ∀ (u : Ledger), parseRows requiredColumns
      (u.map (fun r => [Cell.dateC r.date, Cell.strC r.contributor, Cell.numC r.spend,
        Cell.numC r.contribution, Cell.numC r.balance])) = some u := by
    intro u
    induction u with
    | nil => rfl
    | cons r t ih =>
      have hr : parseTx requiredColumns
          [Cell.dateC r.date, Cell.strC r.contributor, Cell.numC r.spend,
           Cell.numC r.contribution, Cell.numC r.balance] = some r := rfl
      simp only [List.map_cons, parseRows, hr, ih]
  have h1 : firstMissing requiredColumns = none := by decide
  unfold loadTable
  simp only [exportTable, h2, h1]
